import Mathlib

/-!
Shallow embedding of the memory puzzle game (`memory.py`): the board
generator, the click/selection state machine, hit testing, the win check
and the list-splitting helper, together with theorems settling the
specification claims about them.

Conventions of the embedding:
  * Python lists become Lean `List`s; the board is a list of columns
    (`board[x][y]`), exactly as in the source.
  * Python indexing (which wraps negative indices and raises `IndexError`
    past the ends) is modelled by `pyGet`/`pySet` returning `Option`.
  * `random.shuffle` becomes an arbitrary function parameter; theorems
    assume it permutes its input, which is all `random.shuffle` guarantees.
  * Functions that can raise return `Option`, `none` marking the raise.
-/

namespace Memory

/-- The five icon shapes of `ALLSHAPES`. -/
inductive Shape where
  | donut | square | diamond | triangle | circle
deriving DecidableEq, Repr

/-- The seven icon colors of `ALLCOLORS`. -/
inductive Color where
  | red | green | blue | yellow | orange | purple | cyan
deriving DecidableEq, Repr

/-- An icon is a (shape, color) pair, as built in `getRandomizedBoard`. -/
abbrev Icon := Shape × Color

/-- Compare icons the way the source does, by value equality. -/
instance : BEq Icon := instBEqOfDecidableEq

abbrev Board := List (List Icon)

abbrev Revealed := List (List Bool)

/-- A box coordinate `(i, j)`; Python tuples of ints. -/
abbrev Box := Int × Int

/-- `ALLSHAPES` from the source. -/
def ALLSHAPES : List Shape :=
  [Shape.donut, Shape.square, Shape.diamond, Shape.triangle, Shape.circle]

/-- `ALLCOLORS` from the source. -/
def ALLCOLORS : List Color :=
  [Color.red, Color.green, Color.blue, Color.yellow, Color.orange,
   Color.purple, Color.cyan]

def BOARDWIDTH : Nat := 10
def BOARDHEIGHT : Nat := 7
def WINDOWWIDTH : Int := 640
def WINDOWHEIGHT : Int := 480
def BOXSIZE : Int := 40
def GAPSIZE : Int := 10

/-- `XMARGIN = int((WINDOWWIDTH - (BOARDWIDTH * (BOXSIZE + GAPSIZE))) / 2)`. -/
def XMARGIN : Int := (WINDOWWIDTH - (BOARDWIDTH * (BOXSIZE + GAPSIZE))) / 2

/-- `YMARGIN = int((WINDOWHEIGHT - (BOARDHEIGHT * (BOXSIZE + GAPSIZE))) / 2)`. -/
def YMARGIN : Int := (WINDOWHEIGHT - (BOARDHEIGHT * (BOXSIZE + GAPSIZE))) / 2

/-- Python list read `l[i]`: negative indices wrap once; out of range raises
(`none`). -/
def pyGet (l : List α) (i : Int) : Option α :=
  let j : Int := if i < 0 then (l.length : Int) + i else i
  if 0 ≤ j then l[j.toNat]? else none

/-- Python list write `l[i] = a`: negative indices wrap once; out of range
raises (`none`). -/
def pySet (l : List α) (i : Int) (a : α) : Option (List α) :=
  let j : Int := if i < 0 then (l.length : Int) + i else i
  if 0 ≤ j ∧ j < (l.length : Int) then some (l.set j.toNat a) else none

/-- `getShapeAndColor(board, box) = board[box[0]][box[1]]`. -/
def getShapeAndColor (board : Board) (box : Box) : Option Icon :=
  (pyGet board box.1).bind fun col => pyGet col box.2

/-- `iconVisible(revealed, box) = revealed[box[0]][box[1]]`. -/
def iconVisible (revealed : Revealed) (box : Box) : Option Bool :=
  (pyGet revealed box.1).bind fun col => pyGet col box.2

/-- `setIconVisible(revealed, box, visible)`: in-place update
`revealed[box[0]][box[1]] = visible`, modelled as returning the new grid. -/
def setIconVisible (revealed : Revealed) (box : Box) (visible : Bool) :
    Option Revealed :=
  (pyGet revealed box.1).bind fun col =>
    (pySet col box.2 visible).bind fun col2 =>
      pySet revealed box.1 col2

/-- `generateRevealedBoxesData(revealed, width, height)`:
`[[revealed] * height for x in range(width)]`. -/
def generateRevealedBoxesData (revealed : Bool) (width height : Nat) :
    Revealed :=
  (List.range width).map fun _ => List.replicate height revealed

/-- A pygame `Rect` restricted to what the game uses. -/
structure Rect where
  x : Int
  y : Int
  w : Int
  h : Int
deriving DecidableEq, Repr

/-- `Rect.collidepoint(pos)`: left/top edges inside, right/bottom outside. -/
def collidepoint (r : Rect) (pos : Int × Int) : Bool :=
  decide (r.x ≤ pos.1 ∧ pos.1 < r.x + r.w ∧ r.y ≤ pos.2 ∧ pos.2 < r.y + r.h)

/-- `getBoxPos(box)`: pixel position of box `(i, j)`. -/
def getBoxPos (box : Box) : Int × Int :=
  (box.1 * (BOXSIZE + GAPSIZE) + XMARGIN,
   box.2 * (BOXSIZE + GAPSIZE) + YMARGIN)

/-- `getBoxRect(box)`: the `BOXSIZE` square at `getBoxPos(box)`. -/
def getBoxRect (box : Box) : Rect :=
  Rect.mk (getBoxPos box).1 (getBoxPos box).2 BOXSIZE BOXSIZE

/-- The generator `((i, j) for i in range(BOARDWIDTH) for j in
range(BOARDHEIGHT))` used by `getBoxCell`. -/
def allBoxes : List Box :=
  (List.range BOARDWIDTH).flatMap fun (i : Nat) =>
    (List.range BOARDHEIGHT).map fun (j : Nat) => ((i : Int), (j : Int))

/-- `getBoxCell(pos)`: first box whose rect contains `pos`, else `None`. -/
def getBoxCell (pos : Int × Int) : Option Box :=
  allBoxes.find? fun box => collidepoint (getBoxRect box) pos

/-- Outcome of one `handleClick` call, identifying the branch taken: the
`Match`/`Mismatch` constructors correspond to the two logged resolutions. -/
inductive Outcome where
  | NoAction | OnePicked | Match | Mismatch
deriving DecidableEq, Repr

/-- The hide loop of the mismatch branch:
`for s in selection: setIconVisible(revealed, s, False)`. -/
def hideAll : Revealed → List Box → Option Revealed
  | rev, [] => some rev
  | rev, b :: rest => (setIconVisible rev b false).bind fun r => hideAll r rest

/-- The body of `handleClick` once the hit test has produced a box: the
`if box and box not in selection` guard and everything under it. -/
def handleClickBox (board : Board) (revealed : Revealed)
    (box : Box) (selection : List Box) :
    Option (Revealed × List Box × Outcome) :=
  if box ∈ selection then some (revealed, selection, Outcome.NoAction)
  else
    let sel := selection ++ [box]
    match setIconVisible revealed box true with
    | none => none
    | some rev =>
      if sel.length > 1 then
        match sel[0]?, sel[1]? with
        | some s0, some s1 =>
          match getShapeAndColor board s0, getShapeAndColor board s1 with
          | some icon1, some icon2 =>
            if icon1 = icon2 then
              some (rev, [], Outcome.Match)
            else
              (hideAll rev sel).map fun rev2 => (rev2, [], Outcome.Mismatch)
          | _, _ => none
        | _, _ => none
      else
        some (rev, sel, Outcome.OnePicked)

/-- `handleClick(board, revealed, mousePos, selection)`: the selection/match
engine.  Returns the updated reveal grid, the updated selection list and the
branch taken; `none` models a Python exception. -/
def handleClick (board : Board) (revealed : Revealed)
    (mousePos : Int × Int) (selection : List Box) :
    Option (Revealed × List Box × Outcome) :=
  match getBoxCell mousePos with
  | none => some (revealed, selection, Outcome.NoAction)
  | some box => handleClickBox board revealed box selection

/-- `[(shape, color) for shape in ALLSHAPES for color in ALLCOLORS]`. -/
def allIconsList : List Icon :=
  ALLSHAPES.flatMap fun shape => ALLCOLORS.map fun color => (shape, color)

/-- Take exactly `n` elements off the front, or fail: models a run of
`icons.pop()` calls (on the reversed list) that raises when icons run out. -/
def takeExact : Nat → List α → Option (List α × List α)
  | 0, l => some ([], l)
  | _ + 1, [] => none
  | n + 1, a :: l => (takeExact n l).map fun p => (a :: p.1, p.2)

/-- The nested comprehension of `getRandomizedBoard`: `width` columns of
`height` cells each, every cell one `icons.pop()`.  The argument is the icon
list already reversed, so popping from the back becomes taking off the
front. -/
def buildBoard : Nat → Nat → List α → Option (List (List α) × List α)
  | 0, _, l => some ([], l)
  | w + 1, h, l =>
    (takeExact h l).bind fun p =>
      (buildBoard w h p.2).map fun q => (p.1 :: q.1, q.2)

/-- `getRandomizedBoard(width, height)`: shuffle the icon catalog, keep
`width*height/2` icons, duplicate, shuffle, pop into the grid.  The two
`random.shuffle` calls are the function parameters. -/
def getRandomizedBoard (shuffle1 shuffle2 : List Icon → List Icon)
    (width height : Nat) : Option Board :=
  let allIcons := shuffle1 allIconsList
  let numIcons := width * height / 2
  let icons := shuffle2 (allIcons.take numIcons ++ allIcons.take numIcons)
  (buildBoard width height icons.reverse).map Prod.fst

/-- `splitIntoGroupsOf(size, items)`:
`[[item for item in items[start:start+size]] for start in range(0, len(items), size)]`;
`none` models the `ValueError` of `range` with step 0. -/
def splitIntoGroupsOf (size : Nat) (items : List α) : Option (List (List α)) :=
  if size = 0 then none
  else
    some ((List.range' 0 ((items.length + size - 1) / size) size).map
      fun start => (items.drop start).take size)

/-- `hasWon(revealed)`: `for col in revealed: if False in col: return False`. -/
def hasWon : Revealed → Bool
  | [] => true
  | col :: rest => if col.contains false then false else hasWon rest

/-- A grid with `w` columns each of length `h` (the shape every grid built by
`getRandomizedBoard` or `generateRevealedBoxesData` has). -/
def gridWF (g : List (List α)) (w h : Nat) : Prop :=
  g.length = w ∧ ∀ col ∈ g, col.length = h

/-- A box lying inside the `[0,w) × [0,h)` bounds. -/
def inBounds (box : Box) (w h : Nat) : Prop :=
  0 ≤ box.1 ∧ box.1 < (w : Int) ∧ 0 ≤ box.2 ∧ box.2 < (h : Int)

instance (g : List (List α)) (w h : Nat) : Decidable (gridWF g w h) :=
  decidable_of_iff (g.length = w ∧ ∀ col ∈ g, col.length = h) Iff.rfl

instance (box : Box) (w h : Nat) : Decidable (inBounds box w h) :=
  decidable_of_iff
    (0 ≤ box.1 ∧ box.1 < (w : Int) ∧ 0 ≤ box.2 ∧ box.2 < (h : Int)) Iff.rfl

/-- Run a sequence of clicks through `handleClick` the way the main loop
does, threading the reveal grid and selection and recording every call's
outcome. -/
def runClicks (board : Board) : Revealed → List Box → List (Int × Int) →
    Option (Revealed × List Box × List Outcome)
  | rev, sel, [] => some (rev, sel, [])
  | rev, sel, pos :: rest =>
    (handleClick board rev pos sel).bind fun r =>
      (runClicks board r.1 r.2.1 rest).map fun q => (q.1, q.2.1, r.2.2 :: q.2.2)

def iconA : Icon := (Shape.donut, Color.red)

def iconB : Icon := (Shape.square, Color.blue)

def fillerIcon : Icon := (Shape.circle, Color.cyan)

/-- A concrete 10×7 board: boxes `(0,0)` and `(1,0)` hold the same icon,
box `(2,0)` a different one, everything else a filler icon.  Used to
evaluate the click machinery on explicit inputs. -/
def testBoard : Board :=
  (iconA :: List.replicate 6 fillerIcon) ::
  (iconA :: List.replicate 6 fillerIcon) ::
  (iconB :: List.replicate 6 fillerIcon) ::
  List.replicate 7 (List.replicate 7 fillerIcon)

/-- The all-hidden reveal grid a fresh round starts with. -/
def startRev : Revealed := generateRevealedBoxesData false BOARDWIDTH BOARDHEIGHT

/-! ### Indexing lemmas -/

theorem pyGet_nonneg (l : List α) (i : Int) (h : 0 ≤ i) :
    pyGet l i = l[i.toNat]? := by
  simp only [pyGet]
  have hni : ¬ i < 0 := by omega
  simp only [if_neg hni]
  rw [if_pos h]

theorem pyGet_natCast (l : List α) (i : Nat) : pyGet l (i : Int) = l[i]? := by
  rw [pyGet_nonneg l _ (by omega)]
  simp

theorem pySet_nonneg (l : List α) (i : Int) (a : α) (h0 : 0 ≤ i)
    (hlt : i < (l.length : Int)) :
    pySet l i a = some (l.set i.toNat a) := by
  simp only [pySet]
  have hni : ¬ i < 0 := by omega
  simp only [if_neg hni]
  rw [if_pos ⟨h0, hlt⟩]

theorem getElem?_isSome_iff (l : List α) (n : Nat) :
    l[n]?.isSome = true ↔ n < l.length := by
  cases hl : l[n]? with
  | none =>
    simp only [Option.isSome_none, Bool.false_eq_true, false_iff, not_lt]
    exact List.getElem?_eq_none_iff.mp hl
  | some a =>
    simp only [Option.isSome_some, true_iff]
    obtain ⟨h, _⟩ := List.getElem?_eq_some.mp hl
    exact h

theorem pyGet_isSome (l : List α) (i : Int) :
    (pyGet l i).isSome = true ↔ -(l.length : Int) ≤ i ∧ i < (l.length : Int) := by
  simp only [pyGet]
  by_cases hneg : i < 0
  · simp only [if_pos hneg]
    by_cases hge : 0 ≤ (l.length : Int) + i
    · rw [if_pos hge, getElem?_isSome_iff]
      omega
    · rw [if_neg hge]
      simp only [Option.isSome_none, Bool.false_eq_true, false_iff]
      omega
  · simp only [if_neg hneg]
    rw [if_pos (by omega), getElem?_isSome_iff]
    omega

theorem pyGet_mem (l : List α) (i : Int) (a : α) (h : pyGet l i = some a) :
    a ∈ l := by
  simp only [pyGet] at h
  split at h
  · split at h
    · obtain ⟨hlt, hget⟩ := List.getElem?_eq_some.mp h
      exact hget ▸ List.getElem_mem hlt
    · cases h
  · split at h
    · obtain ⟨hlt, hget⟩ := List.getElem?_eq_some.mp h
      exact hget ▸ List.getElem_mem hlt
    · cases h

theorem gridGet_eq (g : List (List α)) (i j : Nat) :
    (pyGet g (i : Int)).bind (fun col => pyGet col (j : Int)) =
      g[i]?.bind fun col => col[j]? := by
  rw [pyGet_natCast]
  cases hg : g[i]? with
  | none => rfl
  | some col => simp [pyGet_natCast]

theorem getShapeAndColor_natCast (board : Board) (i j : Nat) :
    getShapeAndColor board ((i : Int), (j : Int)) =
      board[i]?.bind fun col => col[j]? :=
  gridGet_eq board i j

theorem iconVisible_natCast (revealed : Revealed) (i j : Nat) :
    iconVisible revealed ((i : Int), (j : Int)) =
      revealed[i]?.bind fun col => col[j]? :=
  gridGet_eq revealed i j

theorem gridWF_get (g : List (List α)) (w h : Nat) (hwf : gridWF g w h)
    (i : Nat) (hi : i < w) :
    ∃ col, g[i]? = some col ∧ col.length = h := by
  obtain ⟨hlen, hcols⟩ := hwf
  have hi' : i < g.length := by omega
  exact ⟨g[i], by simp [List.getElem?_eq_getElem hi'],
    hcols _ (g.getElem_mem hi')⟩

theorem gridGet_inBounds (g : List (List α)) (w h : Nat) (hwf : gridWF g w h)
    (box : Box) (hb : inBounds box w h) :
    ∃ a, (pyGet g box.1).bind (fun col => pyGet col box.2) = some a := by
  obtain ⟨h1, h2, h3, h4⟩ := hb
  obtain ⟨col, hcol, hlen⟩ := gridWF_get g w h hwf box.1.toNat (by omega)
  rw [pyGet_nonneg _ _ h1, hcol]
  simp only [Option.some_bind, pyGet_nonneg _ _ h3]
  have : box.2.toNat < col.length := by omega
  exact ⟨col[box.2.toNat], by simp [List.getElem?_eq_getElem this]⟩

theorem getShapeAndColor_inBounds (board : Board) (w h : Nat)
    (hwf : gridWF board w h) (box : Box) (hb : inBounds box w h) :
    ∃ icon, getShapeAndColor board box = some icon :=
  gridGet_inBounds board w h hwf box hb

theorem iconVisible_inBounds (revealed : Revealed) (w h : Nat)
    (hwf : gridWF revealed w h) (box : Box) (hb : inBounds box w h) :
    ∃ v, iconVisible revealed box = some v :=
  gridGet_inBounds revealed w h hwf box hb

/-! ### `setIconVisible` lemmas -/

theorem setIconVisible_eq (revealed : Revealed) (w h : Nat)
    (hwf : gridWF revealed w h) (box : Box) (hb : inBounds box w h) (v : Bool) :
    ∃ col, revealed[box.1.toNat]? = some col ∧
      setIconVisible revealed box v =
        some (revealed.set box.1.toNat (col.set box.2.toNat v)) := by
  have hrevlen : revealed.length = w := hwf.1
  obtain ⟨h1, h2, h3, h4⟩ := hb
  obtain ⟨col, hcol, hlen⟩ := gridWF_get revealed w h hwf box.1.toNat (by omega)
  refine ⟨col, hcol, ?_⟩
  simp only [setIconVisible]
  rw [pyGet_nonneg _ _ h1, hcol]
  simp only [Option.some_bind]
  rw [pySet_nonneg _ _ _ h3 (by omega)]
  simp only [Option.some_bind]
  rw [pySet_nonneg _ _ _ h1 (by omega)]

theorem gridWF_set (g : List (List α)) (w h : Nat) (hwf : gridWF g w h)
    (i : Nat) (col : List α) (hcol : col.length = h) :
    gridWF (g.set i col) w h := by
  obtain ⟨hlen, hcols⟩ := hwf
  refine ⟨by simp [hlen], fun c hc => ?_⟩
  rcases List.mem_or_eq_of_mem_set hc with hmem | rfl
  · exact hcols c hmem
  · exact hcol

theorem setIconVisible_wf (revealed : Revealed) (w h : Nat)
    (hwf : gridWF revealed w h) (box : Box) (hb : inBounds box w h) (v : Bool) :
    ∃ rev2, setIconVisible revealed box v = some rev2 ∧ gridWF rev2 w h := by
  obtain ⟨col, hcol, heq⟩ := setIconVisible_eq revealed w h hwf box hb v
  refine ⟨_, heq, gridWF_set _ w h hwf _ _ ?_⟩
  have hmem : col ∈ revealed := by
    have := List.getElem?_eq_some.mp hcol
    obtain ⟨hlt, hget⟩ := this
    exact hget ▸ List.getElem_mem hlt
  have := hwf.2 col hmem
  simp [this]

theorem iconVisible_eq_getElem (g : Revealed) (box : Box) (h1 : 0 ≤ box.1)
    (h2 : 0 ≤ box.2) :
    iconVisible g box = g[box.1.toNat]?.bind fun col => col[box.2.toNat]? := by
  simp only [iconVisible]
  rw [pyGet_nonneg _ _ h1]
  cases g[box.1.toNat]? with
  | none => rfl
  | some col => simp [pyGet_nonneg _ _ h2]

/-- Pointwise effect of `setIconVisible` on in-bounds cells: the written cell
takes the new value, every other in-bounds cell keeps its old value. -/
theorem iconVisible_setIconVisible (revealed : Revealed) (w h : Nat)
    (hwf : gridWF revealed w h) (box box' : Box) (hb : inBounds box w h)
    (hb' : inBounds box' w h) (v : Bool) (rev2 : Revealed)
    (hset : setIconVisible revealed box v = some rev2) :
    iconVisible rev2 box' = if box' = box then some v else iconVisible revealed box' := by
  obtain ⟨col, hcol, heq⟩ := setIconVisible_eq revealed w h hwf box hb v
  rw [hset] at heq
  have hrev2 : rev2 = revealed.set box.1.toNat (col.set box.2.toNat v) :=
    Option.some.inj heq
  obtain ⟨hbx1, hbx2, hbx3, hbx4⟩ := hb
  obtain ⟨hb'1, hb'2, hb'3, hb'4⟩ := hb'
  have hcollen : col.length = h := by
    obtain ⟨hlt, hget⟩ := List.getElem?_eq_some.mp hcol
    exact hwf.2 col (hget ▸ List.getElem_mem hlt)
  have hrevlen : revealed.length = w := hwf.1
  subst hrev2
  rw [iconVisible_eq_getElem _ _ hb'1 hb'3, iconVisible_eq_getElem _ _ hb'1 hb'3]
  by_cases hcols : box'.1 = box.1
  · have htn : box'.1.toNat = box.1.toNat := by omega
    rw [htn, List.getElem?_set_self (by omega), hcol]
    simp only [Option.some_bind]
    by_cases hrows : box'.2 = box.2
    · have ht2 : box'.2.toNat = box.2.toNat := by omega
      rw [ht2, List.getElem?_set_self (by omega)]
      rw [if_pos (Prod.ext hcols hrows)]
    · have ht2 : box.2.toNat ≠ box'.2.toNat := by omega
      rw [List.getElem?_set_ne ht2]
      rw [if_neg (by simp [Prod.ext_iff, hrows])]
  · have htn : box.1.toNat ≠ box'.1.toNat := by omega
    rw [List.getElem?_set_ne htn]
    rw [if_neg (by simp [Prod.ext_iff, hcols])]

/-! ### Hit-testing lemmas -/

theorem mem_allBoxes (box : Box) :
    box ∈ allBoxes ↔ inBounds box BOARDWIDTH BOARDHEIGHT := by
  constructor
  · intro hmem
    have hmem' : ∃ i ∈ List.range BOARDWIDTH,
        box ∈ (List.range BOARDHEIGHT).map fun j => (((i : Int), (j : Int)) : Box) :=
      List.mem_flatMap.mp hmem
    obtain ⟨i, hi, hmap⟩ := hmem'
    have hmap' : ∃ j ∈ List.range BOARDHEIGHT,
        (((i : Int), (j : Int)) : Box) = box := List.mem_map.mp hmap
    obtain ⟨j, hj, heq⟩ := hmap'
    subst heq
    have hi' := List.mem_range.mp hi
    have hj' := List.mem_range.mp hj
    simp only [BOARDWIDTH, BOARDHEIGHT] at hi' hj'
    refine ⟨?_, ?_, ?_, ?_⟩
    · show (0 : Int) ≤ (i : Int)
      omega
    · show (i : Int) < (BOARDWIDTH : Int)
      simp only [BOARDWIDTH]
      omega
    · show (0 : Int) ≤ (j : Int)
      omega
    · show (j : Int) < (BOARDHEIGHT : Int)
      simp only [BOARDHEIGHT]
      omega
  · rintro ⟨h1, h2, h3, h4⟩
    simp only [BOARDWIDTH, BOARDHEIGHT] at h2 h4
    have e1 : (box.1.toNat : Int) = box.1 := by omega
    have e2 : (box.2.toNat : Int) = box.2 := by omega
    have hbox : box = ((box.1.toNat : Int), (box.2.toNat : Int)) := by
      rw [e1, e2]
    rw [hbox]
    have hw : box.1.toNat < BOARDWIDTH := by
      simp only [BOARDWIDTH]
      omega
    have hh : box.2.toNat < BOARDHEIGHT := by
      simp only [BOARDHEIGHT]
      omega
    refine List.mem_flatMap.mpr ⟨box.1.toNat, List.mem_range.mpr hw, ?_⟩
    exact List.mem_map.mpr ⟨box.2.toNat, List.mem_range.mpr hh, rfl⟩

/-- Clicking the exact top-left pixel of a box hits that box and no other. -/
theorem collide_getBoxPos (a b : Box) :
    collidepoint (getBoxRect a) (getBoxPos b) = true ↔ a = b := by
  simp only [collidepoint, getBoxRect, getBoxPos, BOXSIZE, GAPSIZE, XMARGIN,
    YMARGIN, WINDOWWIDTH, WINDOWHEIGHT, BOARDWIDTH, BOARDHEIGHT,
    decide_eq_true_eq, Prod.ext_iff]
  omega

theorem find?_eq_some_of_unique {p : α → Bool} {l : List α} {a : α}
    (ha : a ∈ l) (hpa : p a = true)
    (huniq : ∀ x ∈ l, p x = true → x = a) :
    l.find? p = some a := by
  induction l with
  | nil => cases ha
  | cons x xs ih =>
    by_cases hx : p x = true
    · have hxa : x = a := huniq x (List.mem_cons_self x xs) hx
      subst hxa
      simp [List.find?, hx]
    · have hx' : p x = false := by
        cases hpx : p x
        · rfl
        · exact absurd hpx hx
      simp only [List.find?, hx']
      have hmem : a ∈ xs := by
        rcases List.mem_cons.mp ha with rfl | h
        · exact absurd hpa hx
        · exact h
      exact ih hmem fun y hy hpy => huniq y (List.mem_cons_of_mem _ hy) hpy

theorem getBoxCell_getBoxPos (a : Box)
    (ha : inBounds a BOARDWIDTH BOARDHEIGHT) :
    getBoxCell (getBoxPos a) = some a := by
  refine find?_eq_some_of_unique ((mem_allBoxes a).mpr ha)
    ((collide_getBoxPos a a).mpr rfl) ?_
  intro x _ hpx
  exact (collide_getBoxPos x a).mp hpx

/-- Any box produced by `getBoxCell` is in bounds (claim C9's core). -/
theorem getBoxCell_inBounds (pos : Int × Int) (box : Box)
    (h : getBoxCell pos = some box) :
    inBounds box BOARDWIDTH BOARDHEIGHT :=
  (mem_allBoxes box).mp (List.mem_of_find?_eq_some h)

/-! ### `handleClick` lemmas -/

theorem handleClick_cell_some (board : Board) (rev : Revealed)
    (pos : Int × Int) (sel : List Box) (box : Box)
    (hcell : getBoxCell pos = some box) :
    handleClick board rev pos sel = handleClickBox board rev box sel := by
  simp only [handleClick]
  rw [hcell]

theorem handleClick_cell_none (board : Board) (rev : Revealed)
    (pos : Int × Int) (sel : List Box)
    (hcell : getBoxCell pos = none) :
    handleClick board rev pos sel = some (rev, sel, Outcome.NoAction) := by
  simp only [handleClick]
  rw [hcell]

/-- First pick from an empty selection: the box is revealed and held. -/
theorem handleClick_pick1 (board : Board) (rev : Revealed) (a : Box)
    (hwf : gridWF rev BOARDWIDTH BOARDHEIGHT)
    (ha : inBounds a BOARDWIDTH BOARDHEIGHT) :
    ∃ rev1, handleClick board rev (getBoxPos a) [] =
        some (rev1, [a], Outcome.OnePicked) ∧
      gridWF rev1 BOARDWIDTH BOARDHEIGHT ∧
      ∀ b', inBounds b' BOARDWIDTH BOARDHEIGHT →
        iconVisible rev1 b' = if b' = a then some true else iconVisible rev b' := by
  obtain ⟨rev1, hset, hwf1⟩ := setIconVisible_wf rev _ _ hwf a ha true
  refine ⟨rev1, ?_, hwf1, ?_⟩
  · rw [handleClick_cell_some board rev _ [] a (getBoxCell_getBoxPos a ha)]
    simp only [handleClickBox, List.not_mem_nil, if_false, List.nil_append]
    rw [hset]
    simp
  · intro b' hb'
    exact iconVisible_setIconVisible rev _ _ hwf a b' ha hb' true rev1 hset

/-- Second pick: the selection resolves, matching exactly when the two icons
are value-equal, and the reveal-state ends as the claim describes. -/
theorem handleClick_pick2 (board : Board) (rev1 : Revealed) (a b : Box)
    (hwfB : gridWF board BOARDWIDTH BOARDHEIGHT)
    (hwf1 : gridWF rev1 BOARDWIDTH BOARDHEIGHT)
    (ha : inBounds a BOARDWIDTH BOARDHEIGHT)
    (hb : inBounds b BOARDWIDTH BOARDHEIGHT)
    (hab : a ≠ b) :
    ∃ rev2 out, handleClick board rev1 (getBoxPos b) [a] = some (rev2, [], out) ∧
      (out = Outcome.Match ↔ getShapeAndColor board a = getShapeAndColor board b) ∧
      (out = Outcome.Match ∨ out = Outcome.Mismatch) ∧
      (out = Outcome.Match →
        iconVisible rev2 b = some true ∧
        ∀ b', inBounds b' BOARDWIDTH BOARDHEIGHT → b' ≠ b →
          iconVisible rev2 b' = iconVisible rev1 b') ∧
      (out = Outcome.Mismatch →
        iconVisible rev2 a = some false ∧ iconVisible rev2 b = some false) := by
  obtain ⟨revB, hsetB, hwfB1⟩ := setIconVisible_wf rev1 _ _ hwf1 b hb true
  obtain ⟨iconA, hiconA⟩ := getShapeAndColor_inBounds board _ _ hwfB a ha
  obtain ⟨iconB, hiconB⟩ := getShapeAndColor_inBounds board _ _ hwfB b hb
  have hmem : b ∉ [a] := by
    simp only [List.mem_singleton]
    exact fun hba => hab (hba.symm)
  have hstep : handleClick board rev1 (getBoxPos b) [a] =
      handleClickBox board rev1 b [a] :=
    handleClick_cell_some board rev1 _ [a] b (getBoxCell_getBoxPos b hb)
  by_cases heq : iconA = iconB
  · refine ⟨revB, Outcome.Match, ?_, by simp [hiconA, hiconB, heq], Or.inl rfl,
      ?_, by simp⟩
    · rw [hstep]
      simp only [handleClickBox, if_neg hmem, List.cons_append, List.nil_append]
      rw [hsetB]
      simp only [List.length_cons, List.length_nil, Nat.reduceAdd,
        gt_iff_lt, Nat.one_lt_ofNat, if_true, List.getElem?_cons_zero,
        List.getElem?_cons_succ]
      rw [hiconA, hiconB]
      dsimp only
      rw [if_pos heq]
    · intro _
      constructor
      · have := iconVisible_setIconVisible rev1 _ _ hwf1 b b hb hb true revB hsetB
        rw [this, if_pos rfl]
      · intro b' hb' hne
        have := iconVisible_setIconVisible rev1 _ _ hwf1 b b' hb hb' true revB hsetB
        rw [this, if_neg hne]
  · obtain ⟨revBA, hsetA, hwfBA⟩ := setIconVisible_wf revB _ _ hwfB1 a ha false
    obtain ⟨rev2, hsetB2, hwf2⟩ := setIconVisible_wf revBA _ _ hwfBA b hb false
    refine ⟨rev2, Outcome.Mismatch, ?_, by simp [hiconA, hiconB, heq], Or.inr rfl,
      by simp, ?_⟩
    · rw [hstep]
      simp only [handleClickBox, if_neg hmem, List.cons_append, List.nil_append]
      rw [hsetB]
      simp only [List.length_cons, List.length_nil, Nat.reduceAdd,
        gt_iff_lt, Nat.one_lt_ofNat, if_true, List.getElem?_cons_zero,
        List.getElem?_cons_succ]
      rw [hiconA, hiconB]
      dsimp only
      rw [if_neg heq]
      simp only [hideAll]
      rw [hsetA]
      simp only [Option.some_bind]
      rw [hsetB2]
      simp [hideAll]
    · intro _
      have hA2 := iconVisible_setIconVisible revBA _ _ hwfBA b a hb ha false rev2 hsetB2
      have hA1 := iconVisible_setIconVisible revB _ _ hwfB1 a a ha ha false revBA hsetA
      have hB2 := iconVisible_setIconVisible revBA _ _ hwfBA b b hb hb false rev2 hsetB2
      constructor
      · rw [hA2, if_neg hab, hA1, if_pos rfl]
      · rw [hB2, if_pos rfl]

/-! ### Board generation lemmas -/

theorem take_add_eq (l : List α) (m n : Nat) :
    l.take (m + n) = l.take m ++ (l.drop m).take n := by
  induction m generalizing l with
  | zero => simp
  | succ m ih =>
    cases l with
    | nil => simp
    | cons a l =>
      rw [Nat.succ_add]
      simp [List.take_succ_cons, ih]

theorem takeExact_of_le (n : Nat) (l : List α) (h : n ≤ l.length) :
    takeExact n l = some (l.take n, l.drop n) := by
  induction n generalizing l with
  | zero => simp [takeExact]
  | succ n ih =>
    cases l with
    | nil => simp at h
    | cons a l =>
      simp only [takeExact, ih l (by simpa using h)]
      simp

theorem takeExact_none (n : Nat) (l : List α) (h : l.length < n) :
    takeExact n l = none := by
  induction n generalizing l with
  | zero => simp at h
  | succ n ih =>
    cases l with
    | nil => rfl
    | cons a l =>
      simp only [takeExact, ih l (by simpa using h)]
      rfl

theorem buildBoard_of_le (w h : Nat) (l : List α) (hle : w * h ≤ l.length) :
    ∃ b, buildBoard w h l = some (b, l.drop (w * h)) ∧
      b.flatten = l.take (w * h) ∧ b.length = w ∧ ∀ col ∈ b, col.length = h := by
  induction w generalizing l with
  | zero => exact ⟨[], by simp [buildBoard], by simp, rfl, by simp⟩
  | succ w ih =>
    have hmul : (w + 1) * h = h + w * h := by ring
    have hh : h ≤ l.length := by
      rw [hmul] at hle
      omega
    obtain ⟨b, hbuild, hflat, hblen, hcols⟩ := ih (l.drop h) (by
      rw [List.length_drop]
      rw [hmul] at hle
      omega)
    refine ⟨l.take h :: b, ?_, ?_, by simp [hblen], ?_⟩
    · simp only [buildBoard, takeExact_of_le h l hh, Option.some_bind, hbuild]
      simp only [Option.map_some']
      rw [hmul, ← List.drop_drop]
    · simp only [List.flatten_cons, hflat, hmul]
      rw [take_add_eq]
    · intro col hcol
      rcases List.mem_cons.mp hcol with rfl | hmem
      · simp [List.length_take]
        omega
      · exact hcols col hmem

theorem buildBoard_none (w h : Nat) (l : List α) (hlt : l.length < w * h) :
    buildBoard w h l = none := by
  induction w generalizing l with
  | zero => simp at hlt
  | succ w ih =>
    have hmul : (w + 1) * h = h + w * h := by ring
    by_cases hle : h ≤ l.length
    · simp only [buildBoard, takeExact_of_le h l hle, Option.some_bind]
      rw [ih (l.drop h) (by
        rw [List.length_drop]
        rw [hmul] at hlt
        omega)]
      rfl
    · simp only [buildBoard, takeExact_none h l (by omega)]
      rfl

theorem allIconsList_length : allIconsList.length = 35 := by decide

theorem allIconsList_nodup : allIconsList.Nodup := by decide

/-- Every valid configuration yields a perfectly paired board, whatever the
two shuffles do, provided they permute their input. -/
theorem getRandomizedBoard_pairing (s1 s2 : List Icon → List Icon)
    (h1 : ∀ l, (s1 l).Perm l) (h2 : ∀ l, (s2 l).Perm l)
    (w h : Nat) (heven : w * h % 2 = 0) (hcat : w * h / 2 ≤ allIconsList.length) :
    ∃ b, getRandomizedBoard s1 s2 w h = some b ∧
      b.flatten.length = w * h ∧
      ∀ icon ∈ b.flatten, b.flatten.count icon = 2 := by
  have hlen1 : (s1 allIconsList).length = allIconsList.length := (h1 _).length_eq
  have hlent : ((s1 allIconsList).take (w * h / 2)).length = w * h / 2 := by
    rw [List.length_take]
    omega
  have hldup : ((s1 allIconsList).take (w * h / 2) ++
      (s1 allIconsList).take (w * h / 2)).length = w * h := by
    rw [List.length_append]
    omega
  have hlicons : (s2 ((s1 allIconsList).take (w * h / 2) ++
      (s1 allIconsList).take (w * h / 2))).length = w * h :=
    (h2 _).length_eq.trans hldup
  have hrevlen : (s2 ((s1 allIconsList).take (w * h / 2) ++
      (s1 allIconsList).take (w * h / 2))).reverse.length = w * h := by
    rw [List.length_reverse]
    exact hlicons
  obtain ⟨b, hbuild, hflat, _, _⟩ :=
    buildBoard_of_le w h
      (s2 ((s1 allIconsList).take (w * h / 2) ++
        (s1 allIconsList).take (w * h / 2))).reverse (by omega)
  have hflat' : b.flatten =
      (s2 ((s1 allIconsList).take (w * h / 2) ++
        (s1 allIconsList).take (w * h / 2))).reverse := by
    rw [hflat]
    exact List.take_of_length_le (le_of_eq hrevlen)
  refine ⟨b, ?_, ?_, ?_⟩
  · simp only [getRandomizedBoard, hbuild, Option.map_some']
  · rw [hflat', hrevlen]
  · intro icon hmem
    have hnodup : ((s1 allIconsList).take (w * h / 2)).Nodup :=
      (List.take_sublist _ _).nodup ((h1 _).nodup_iff.mpr allIconsList_nodup)
    have hcount : b.flatten.count icon =
        ((s1 allIconsList).take (w * h / 2)).count icon +
          ((s1 allIconsList).take (w * h / 2)).count icon := by
      calc b.flatten.count icon
          = (s2 ((s1 allIconsList).take (w * h / 2) ++
              (s1 allIconsList).take (w * h / 2))).reverse.count icon := by
            rw [hflat']
        _ = (s2 ((s1 allIconsList).take (w * h / 2) ++
              (s1 allIconsList).take (w * h / 2))).count icon :=
            List.count_reverse icon _
        _ = ((s1 allIconsList).take (w * h / 2) ++
              (s1 allIconsList).take (w * h / 2)).count icon :=
            (h2 _).count_eq icon
        _ = ((s1 allIconsList).take (w * h / 2)).count icon +
              ((s1 allIconsList).take (w * h / 2)).count icon :=
            List.count_append icon _ _
    have hmem' : icon ∈ (s1 allIconsList).take (w * h / 2) := by
      rw [hflat'] at hmem
      have := (h2 _).mem_iff.mp (List.mem_reverse.mp hmem)
      rcases List.mem_append.mp this with hx | hx
      · exact hx
      · exact hx
    have hone : ((s1 allIconsList).take (w * h / 2)).count icon = 1 :=
      List.count_eq_one_of_mem hnodup hmem'
    rw [hcount, hone]

/-- Any configuration violating the pairing preconditions makes
`getRandomizedBoard` run out of icons while popping: the model returns
`none` (Python raises `IndexError`), not a `ConfigurationError`. -/
theorem getRandomizedBoard_invalid (s1 s2 : List Icon → List Icon)
    (h1 : ∀ l, (s1 l).Perm l) (h2 : ∀ l, (s2 l).Perm l) (w h : Nat)
    (hbad : w * h % 2 = 1 ∨ 2 * allIconsList.length < w * h) :
    getRandomizedBoard s1 s2 w h = none := by
  have hlen1 : (s1 allIconsList).length = allIconsList.length := (h1 _).length_eq
  have hlent : ((s1 allIconsList).take (w * h / 2)).length =
      min (w * h / 2) allIconsList.length := by
    rw [List.length_take]
    omega
  have hlicons : (s2 ((s1 allIconsList).take (w * h / 2) ++
      (s1 allIconsList).take (w * h / 2))).reverse.length <  w * h := by
    rw [List.length_reverse, (h2 _).length_eq, List.length_append, hlent]
    have h35 : allIconsList.length = 35 := allIconsList_length
    omega
  simp only [getRandomizedBoard, buildBoard_none w h _ hlicons, Option.map_none']

/-! ### `splitIntoGroupsOf` lemmas -/

theorem splitJoin_aux (s : Nat) (k : Nat) : ∀ (a : Nat) (l : List α),
    ((List.range' a k s).map fun start => (l.drop start).take s).flatten =
      (l.drop a).take (k * s) := by
  induction k with
  | zero =>
    intro a l
    simp
  | succ k ih =>
    intro a l
    rw [List.range'_succ]
    simp only [List.map_cons, List.flatten_cons]
    rw [ih (a + s) l]
    have hd : List.drop (a + s) l = (List.drop a l).drop s :=
      (List.drop_drop s a l).symm
    rw [hd, ← take_add_eq]
    have hmul : s + k * s = (k + 1) * s := by ring
    rw [hmul]

theorem ceil_div_mul_ge (n s : Nat) (hs : 0 < s) :
    n ≤ ((n + s - 1) / s) * s := by
  rcases Nat.eq_zero_or_pos n with rfl | hn
  · simp
  · have hsplit : n + s - 1 = (n - 1) + s := by omega
    rw [hsplit, Nat.add_div_right _ hs]
    have hdm := Nat.div_add_mod (n - 1) s
    have hmlt : (n - 1) % s < s := Nat.mod_lt _ hs
    have hmul : ((n - 1) / s + 1) * s = s * ((n - 1) / s) + s := by ring
    rw [hmul]
    omega

theorem ceil_div_pred_mul_lt (n s i : Nat) (hs : 0 < s) (hn : 0 < n)
    (hi : i + 1 < (n + s - 1) / s) :
    s * (i + 1) ≤ n := by
  have hsplit : n + s - 1 = (n - 1) + s := by omega
  rw [hsplit, Nat.add_div_right _ hs] at hi
  have hle : i + 1 ≤ (n - 1) / s := by omega
  have h1 : s * (i + 1) ≤ s * ((n - 1) / s) := Nat.mul_le_mul_left s hle
  have h2 : s * ((n - 1) / s) ≤ n - 1 := Nat.mul_div_le (n - 1) s
  omega

/-- `splitIntoGroupsOf` succeeds for every positive size, its groups
concatenate back to the input, and all groups but possibly the last have
exactly `size` elements. -/
theorem splitIntoGroupsOf_spec (size : Nat) (hs : 1 ≤ size) (items : List α) :
    ∃ groups, splitIntoGroupsOf size items = some groups ∧
      groups.flatten = items ∧
      ∀ i, i + 1 < groups.length → ∀ hi : i < groups.length,
        (groups.get ⟨i, hi⟩).length = size := by
  have hs0 : size ≠ 0 := by omega
  refine ⟨(List.range' 0 ((items.length + size - 1) / size) size).map
      fun start => (items.drop start).take size, ?_, ?_, ?_⟩
  · simp only [splitIntoGroupsOf, if_neg hs0]
  · rw [splitJoin_aux size _ 0 items]
    simp only [List.drop_zero]
    exact List.take_of_length_le (ceil_div_mul_ge items.length size (by omega))
  · intro i hi1 hi
    simp only [List.get_eq_getElem, List.getElem_map, List.getElem_range']
    rw [List.length_take, List.length_drop]
    simp only [List.length_map, List.length_range'] at hi1
    have hn : 0 < items.length := by
      by_contra hzero
      have hlen0 : items.length = 0 := by omega
      rw [hlen0] at hi1
      have : (0 + size - 1) / size = 0 := Nat.div_eq_of_lt (by omega)
      omega
    have hkey : size * (i + 1) ≤ items.length :=
      ceil_div_pred_mul_lt items.length size i (by omega) hn hi1
    have hexp : size * (i + 1) = size * i + size := by ring
    omega

/-! ### `hasWon` lemmas -/

theorem hasWon_iff (revealed : Revealed) :
    hasWon revealed = true ↔ ∀ col ∈ revealed, ∀ c ∈ col, c = true := by
  induction revealed with
  | nil => simp [hasWon]
  | cons col rest ih =>
    simp only [hasWon]
    by_cases hc : col.contains false
    · rw [if_pos hc]
      simp only [Bool.false_eq_true, false_iff]
      intro hall
      have hfmem : false ∈ col := List.elem_iff.mp hc
      have := hall col (List.mem_cons_self col rest) false hfmem
      simp at this
    · rw [if_neg hc]
      rw [ih]
      constructor
      · intro hall c hcmem b hb
        rcases List.mem_cons.mp hcmem with rfl | hmem
        · cases b with
          | false => exact absurd (List.elem_iff.mpr hb) hc
          | true => rfl
        · exact hall c hmem b hb
      · intro hall c hcmem b hb
        exact hall c (List.mem_cons_of_mem col hcmem) b hb

/-! ### Claim theorems -/

/-- C1: for every width and height whose product is even and for which the
shape/color catalog supplies at least `width*height/2` distinct pairs, the
board returned by `getRandomizedBoard` contains exactly `width*height`
cells and every icon value that occurs in it occurs in exactly 2 cells. -/
theorem claim_C1_pairing (s1 s2 : List Icon → List Icon)
    (h1 : ∀ l, (s1 l).Perm l) (h2 : ∀ l, (s2 l).Perm l)
    (w h : Nat) (heven : w * h % 2 = 0)
    (hcat : w * h / 2 ≤ allIconsList.length) :
    ∃ b, getRandomizedBoard s1 s2 w h = some b ∧
      b.flatten.length = w * h ∧
      ∀ icon ∈ b.flatten, b.flatten.count icon = 2 :=
  getRandomizedBoard_pairing s1 s2 h1 h2 w h heven hcat

/-- Witness for C1 at the concrete configuration `width = 4`, `height = 2`
with identity shuffles. -/
theorem claim_C1_pairing_witness :
    ∃ b, getRandomizedBoard id id 4 2 = some b ∧
      b.flatten.length = 4 * 2 ∧
      ∀ icon ∈ b.flatten, b.flatten.count icon = 2 :=
  claim_C1_pairing id id (fun l => List.Perm.refl l) (fun l => List.Perm.refl l)
    4 2 (by decide) (by decide)

/-- C4: the win check `hasWon` returns true iff every cell of the
reveal-state grid is true, hence false whenever at least one cell is
false. -/
theorem claim_C4_hasWon (revealed : Revealed) :
    hasWon revealed = true ↔ ∀ col ∈ revealed, ∀ c ∈ col, c = true :=
  hasWon_iff revealed

/-- C5 counterexample: the claim demands a `ConfigurationError` for
`width = 3, height = 2`, but `getRandomizedBoard 3 2` succeeds — the
product 6 is even, 3 pairs fit easily in the 35-icon catalog, and the code
performs no validation at all (no `ConfigurationError` exists in it). -/
theorem claim_C5_counterexample : (getRandomizedBoard id id 3 2).isSome = true := by
  decide

/-- C5 amended: `getRandomizedBoard` itself validates nothing and defines no
`ConfigurationError`; for a configuration that genuinely violates the
preconditions (odd cell count, or a catalog with fewer than
`width*height/2` pairs) it fails only when `icons.pop()` exhausts the list
(an `IndexError`, modelled as `none`), while the module-level asserts
validate only the fixed 10×7 configuration, which passes. -/
theorem claim_C5_amended (s1 s2 : List Icon → List Icon)
    (h1 : ∀ l, (s1 l).Perm l) (h2 : ∀ l, (s2 l).Perm l) (w h : Nat)
    (hbad : w * h % 2 = 1 ∨ 2 * allIconsList.length < w * h) :
    getRandomizedBoard s1 s2 w h = none ∧
    BOARDWIDTH * BOARDHEIGHT % 2 = 0 ∧
    ALLCOLORS.length * ALLSHAPES.length * 2 ≥ BOARDWIDTH * BOARDHEIGHT :=
  ⟨getRandomizedBoard_invalid s1 s2 h1 h2 w h hbad, by decide, by decide⟩

/-- Witness for the amended C5 at the odd configuration `3 × 3`. -/
theorem claim_C5_amended_witness :
    getRandomizedBoard id id 3 3 = none ∧
    BOARDWIDTH * BOARDHEIGHT % 2 = 0 ∧
    ALLCOLORS.length * ALLSHAPES.length * 2 ≥ BOARDWIDTH * BOARDHEIGHT :=
  claim_C5_amended id id (fun l => List.Perm.refl l) (fun l => List.Perm.refl l)
    3 3 (by decide)

/-- C6: picking a box already in the current selection is a no-op — the
selection and every cell of the reveal grid are returned unchanged. -/
theorem claim_C6_noop (board : Board) (rev : Revealed) (pos : Int × Int)
    (sel : List Box) (box : Box) (hcell : getBoxCell pos = some box)
    (hmem : box ∈ sel) :
    handleClick board rev pos sel = some (rev, sel, Outcome.NoAction) := by
  rw [handleClick_cell_some board rev pos sel box hcell]
  simp only [handleClickBox, if_pos hmem]

/-- Witness for C6: re-clicking box `(0,0)` while it is the current
selection changes nothing. -/
theorem claim_C6_noop_witness :
    handleClick testBoard startRev (70, 65) [((0 : Int), (0 : Int))] =
      some (startRev, [((0 : Int), (0 : Int))], Outcome.NoAction) :=
  claim_C6_noop testBoard startRev (70, 65) [((0 : Int), (0 : Int))]
    ((0 : Int), (0 : Int)) (by decide) (by decide)

/-- C7 counterexample: the box `(-1, 0)` lies outside `[0,10) × [0,7)`,
yet `getShapeAndColor` does not fail on it — Python's negative indexing
wraps around and returns the icon of the last column. -/
theorem claim_C7_counterexample :
    getShapeAndColor testBoard (-1, 0) = some fillerIcon := by
  decide

/-- C7 amended: on a well-formed `w × h` board the lookup succeeds exactly
on the wrap-around window `[-w,w) × [-h,h)` (failing with the modelled
`IndexError` outside it, which is only an `OutOfBoundsError` in spirit),
and for every in-bounds box it returns the stored icon. -/
theorem claim_C7_amended (board : Board) (w h : Nat)
    (hwf : gridWF board w h) (box : Box) :
    ((getShapeAndColor board box).isSome = true ↔
      (-(w : Int) ≤ box.1 ∧ box.1 < (w : Int) ∧
        -(h : Int) ≤ box.2 ∧ box.2 < (h : Int))) ∧
    ∀ (i j : Nat), i < w → j < h →
      getShapeAndColor board ((i : Int), (j : Int)) =
        board[i]?.bind fun col => col[j]? := by
  constructor
  · have hblen : board.length = w := hwf.1
    cases hout : pyGet board box.1 with
    | none =>
      have h1 : ¬(-(board.length : Int) ≤ box.1 ∧ box.1 < (board.length : Int)) := by
        intro hcontra
        have := (pyGet_isSome board box.1).mpr hcontra
        rw [hout] at this
        simp at this
      rw [hblen] at h1
      simp only [getShapeAndColor, hout, Option.none_bind, Option.isSome_none,
        Bool.false_eq_true, false_iff]
      intro hfull
      exact h1 ⟨hfull.1, hfull.2.1⟩
    | some col =>
      have hcolmem : col ∈ board := pyGet_mem _ _ _ hout
      have hcollen : col.length = h := hwf.2 col hcolmem
      have hwin1 : -(w : Int) ≤ box.1 ∧ box.1 < (w : Int) := by
        have := (pyGet_isSome board box.1).mp (by rw [hout]; rfl)
        rw [hblen] at this
        exact this
      simp only [getShapeAndColor, hout, Option.some_bind]
      rw [pyGet_isSome col box.2, hcollen]
      constructor
      · intro h2
        exact ⟨hwin1.1, hwin1.2, h2.1, h2.2⟩
      · intro hfull
        exact ⟨hfull.2.2.1, hfull.2.2.2⟩
  · intro i j _ _
    exact getShapeAndColor_natCast board i j

/-- Witness for the amended C7 on the concrete test board. -/
theorem claim_C7_amended_witness :
    (((getShapeAndColor testBoard ((0 : Int), (0 : Int))).isSome = true ↔
      (-(10 : Int) ≤ ((0 : Int), (0 : Int)).1 ∧ ((0 : Int), (0 : Int)).1 < (10 : Int) ∧
        -(7 : Int) ≤ ((0 : Int), (0 : Int)).2 ∧ ((0 : Int), (0 : Int)).2 < (7 : Int))) ∧
    ∀ (i j : Nat), i < 10 → j < 7 →
      getShapeAndColor testBoard ((i : Int), (j : Int)) =
        testBoard[i]?.bind fun col => col[j]?) :=
  claim_C7_amended testBoard 10 7 (by decide) ((0 : Int), (0 : Int))

/-- C9: every box `getBoxCell` produces is inside `[0,10) × [0,7)` and is
therefore a safe index for `getShapeAndColor`, `iconVisible` and
`setIconVisible` on any well-formed board and reveal grid. -/
theorem claim_C9_safe (pos : Int × Int) (box : Box)
    (h : getBoxCell pos = some box) :
    inBounds box BOARDWIDTH BOARDHEIGHT ∧
    ∀ (board : Board) (rev : Revealed),
      gridWF board BOARDWIDTH BOARDHEIGHT → gridWF rev BOARDWIDTH BOARDHEIGHT →
      (getShapeAndColor board box).isSome = true ∧
      (iconVisible rev box).isSome = true ∧
      (setIconVisible rev box true).isSome = true := by
  have hbnd := getBoxCell_inBounds pos box h
  refine ⟨hbnd, fun board rev hwfB hwfR => ⟨?_, ?_, ?_⟩⟩
  · obtain ⟨icon, hicon⟩ := getShapeAndColor_inBounds board _ _ hwfB box hbnd
    simp [hicon]
  · obtain ⟨v, hv⟩ := iconVisible_inBounds rev _ _ hwfR box hbnd
    simp [hv]
  · obtain ⟨rev2, hrev2, _⟩ := setIconVisible_wf rev _ _ hwfR box hbnd true
    simp [hrev2]

/-- Witness for C9 at the pixel `(70, 65)`, which hits box `(0, 0)`. -/
theorem claim_C9_safe_witness :
    inBounds ((0 : Int), (0 : Int)) BOARDWIDTH BOARDHEIGHT ∧
    ∀ (board : Board) (rev : Revealed),
      gridWF board BOARDWIDTH BOARDHEIGHT → gridWF rev BOARDWIDTH BOARDHEIGHT →
      (getShapeAndColor board ((0 : Int), (0 : Int))).isSome = true ∧
      (iconVisible rev ((0 : Int), (0 : Int))).isSome = true ∧
      (setIconVisible rev ((0 : Int), (0 : Int)) true).isSome = true :=
  claim_C9_safe (70, 65) ((0 : Int), (0 : Int)) (by decide)

/-- C10: for every positive size, the sublists returned by
`splitIntoGroupsOf` concatenate back to the input list, and every sublist
except possibly the last has exactly `size` elements. -/
theorem claim_C10_split (size : Nat) (hs : 1 ≤ size) (items : List α) :
    ∃ groups, splitIntoGroupsOf size items = some groups ∧
      groups.flatten = items ∧
      ∀ i, i + 1 < groups.length → ∀ hi : i < groups.length,
        (groups.get ⟨i, hi⟩).length = size :=
  splitIntoGroupsOf_spec size hs items

/-- Witness for C10 at size 3 on a 7-element list. -/
theorem claim_C10_split_witness :
    ∃ groups, splitIntoGroupsOf 3 [1, 2, 3, 4, 5, 6, 7] = some groups ∧
      groups.flatten = [1, 2, 3, 4, 5, 6, 7] ∧
      ∀ i, i + 1 < groups.length → ∀ hi : i < groups.length,
        (groups.get ⟨i, hi⟩).length = 3 :=
  claim_C10_split 3 (by decide) [1, 2, 3, 4, 5, 6, 7]

/-- C2: on any well-formed board, picking two distinct in-bounds boxes in
sequence resolves to the `Match` outcome exactly when the icons at the two
boxes are value-equal, whatever the two positions are. -/
theorem claim_C2_match_iff (board : Board) (rev : Revealed) (a b : Box)
    (hwfB : gridWF board BOARDWIDTH BOARDHEIGHT)
    (hwfR : gridWF rev BOARDWIDTH BOARDHEIGHT)
    (ha : inBounds a BOARDWIDTH BOARDHEIGHT)
    (hb : inBounds b BOARDWIDTH BOARDHEIGHT) (hab : a ≠ b) :
    ∃ rev1, handleClick board rev (getBoxPos a) [] =
        some (rev1, [a], Outcome.OnePicked) ∧
      ∃ rev2 out, handleClick board rev1 (getBoxPos b) [a] = some (rev2, [], out) ∧
        (out = Outcome.Match ↔
          getShapeAndColor board a = getShapeAndColor board b) := by
  obtain ⟨rev1, hc1, hwf1, _⟩ := handleClick_pick1 board rev a hwfR ha
  obtain ⟨rev2, out, hc2, hiff, _, _, _⟩ :=
    handleClick_pick2 board rev1 a b hwfB hwf1 ha hb hab
  exact ⟨rev1, hc1, rev2, out, hc2, hiff⟩

/-- Witness for C2 on the concrete test board, picking `(0,0)` then
`(1,0)`. -/
theorem claim_C2_match_iff_witness :
    ∃ rev1, handleClick testBoard startRev
        (getBoxPos ((0 : Int), (0 : Int))) [] =
        some (rev1, [((0 : Int), (0 : Int))], Outcome.OnePicked) ∧
      ∃ rev2 out, handleClick testBoard rev1
          (getBoxPos ((1 : Int), (0 : Int))) [((0 : Int), (0 : Int))] =
          some (rev2, [], out) ∧
        (out = Outcome.Match ↔
          getShapeAndColor testBoard ((0 : Int), (0 : Int)) =
            getShapeAndColor testBoard ((1 : Int), (0 : Int))) :=
  claim_C2_match_iff testBoard startRev ((0 : Int), (0 : Int))
    ((1 : Int), (0 : Int)) (by decide) (by decide) (by decide) (by decide)
    (by decide)

/-- C3 counterexample: the permanence part of the claim is false.  On the
test board, picking `(0,0)` and `(1,0)` is a `Match` and both stay visible;
but then re-picking `(0,0)` (the code never guards against re-selecting an
already-matched box) followed by `(2,0)` is a `Mismatch` whose hide step
sets the previously matched box `(0,0)` back to not-visible, with no round
reset in between. -/
theorem claim_C3_counterexample :
    ((runClicks testBoard startRev [] [(70, 65), (120, 65)]).map
      fun r => (r.2.2, iconVisible r.1 (0, 0), iconVisible r.1 (1, 0))) =
      some ([Outcome.OnePicked, Outcome.Match], some true, some true) ∧
    ((runClicks testBoard startRev [] [(70, 65), (120, 65), (70, 65), (170, 65)]).map
      fun r => (r.2.2, iconVisible r.1 (0, 0))) =
      some ([Outcome.OnePicked, Outcome.Match, Outcome.OnePicked,
          Outcome.Mismatch],
        some false) := by
  constructor
  · decide
  · decide

/-- C3 amended: after a two-pick resolution, a `Mismatch` leaves both
selected boxes not-visible and a `Match` leaves both visible — but the
match is only guaranteed to persist until the boxes are picked again, since
a later mismatch involving a matched box hides it (see the
counterexample). -/
theorem claim_C3_amended (board : Board) (rev : Revealed) (a b : Box)
    (hwfB : gridWF board BOARDWIDTH BOARDHEIGHT)
    (hwfR : gridWF rev BOARDWIDTH BOARDHEIGHT)
    (ha : inBounds a BOARDWIDTH BOARDHEIGHT)
    (hb : inBounds b BOARDWIDTH BOARDHEIGHT) (hab : a ≠ b) :
    ∃ rev1, handleClick board rev (getBoxPos a) [] =
        some (rev1, [a], Outcome.OnePicked) ∧
      ∃ rev2 out, handleClick board rev1 (getBoxPos b) [a] = some (rev2, [], out) ∧
        (out = Outcome.Mismatch →
          iconVisible rev2 a = some false ∧ iconVisible rev2 b = some false) ∧
        (out = Outcome.Match →
          iconVisible rev2 a = some true ∧ iconVisible rev2 b = some true) := by
  obtain ⟨rev1, hc1, hwf1, hvis1⟩ := handleClick_pick1 board rev a hwfR ha
  obtain ⟨rev2, out, hc2, _, _, hmatch, hmismatch⟩ :=
    handleClick_pick2 board rev1 a b hwfB hwf1 ha hb hab
  refine ⟨rev1, hc1, rev2, out, hc2, fun hm => hmismatch hm, fun hm => ?_⟩
  obtain ⟨hvisb, hother⟩ := hmatch hm
  refine ⟨?_, hvisb⟩
  rw [hother a ha hab]
  rw [hvis1 a ha, if_pos rfl]

/-- Witness for the amended C3 on the concrete test board, picking `(0,0)`
then `(2,0)` (a mismatching pair). -/
theorem claim_C3_amended_witness :
    ∃ rev1, handleClick testBoard startRev
        (getBoxPos ((0 : Int), (0 : Int))) [] =
        some (rev1, [((0 : Int), (0 : Int))], Outcome.OnePicked) ∧
      ∃ rev2 out, handleClick testBoard rev1
          (getBoxPos ((2 : Int), (0 : Int))) [((0 : Int), (0 : Int))] =
          some (rev2, [], out) ∧
        (out = Outcome.Mismatch →
          iconVisible rev2 ((0 : Int), (0 : Int)) = some false ∧
            iconVisible rev2 ((2 : Int), (0 : Int)) = some false) ∧
        (out = Outcome.Match →
          iconVisible rev2 ((0 : Int), (0 : Int)) = some true ∧
            iconVisible rev2 ((2 : Int), (0 : Int)) = some true) :=
  claim_C3_amended testBoard startRev ((0 : Int), (0 : Int))
    ((2 : Int), (0 : Int)) (by decide) (by decide) (by decide) (by decide)
    (by decide)

/-- C8: starting from a selection of at most one box, every completed
`handleClick` call returns a selection of at most one box, and whenever the
selection reaches size 2 inside the call (a fresh box lands on a size-1
selection) it is cleared to empty before the call returns, in the `Match`
and the `Mismatch` branch alike. -/
theorem claim_C8_selection (board : Board) (rev : Revealed)
    (pos : Int × Int) (sel : List Box) (hsel : sel.length ≤ 1)
    (r : Revealed × List Box × Outcome)
    (hcall : handleClick board rev pos sel = some r) :
    r.2.1.length ≤ 1 ∧
    ∀ box, getBoxCell pos = some box → box ∉ sel → sel.length = 1 →
      r.2.1 = [] := by
  cases hcell : getBoxCell pos with
  | none =>
    rw [handleClick_cell_none board rev pos sel hcell] at hcall
    obtain rfl := (Option.some.inj hcall)
    exact ⟨hsel, fun box hbox => Option.noConfusion hbox⟩
  | some box =>
    rw [handleClick_cell_some board rev pos sel box hcell] at hcall
    simp only [handleClickBox] at hcall
    by_cases hmem : box ∈ sel
    · rw [if_pos hmem] at hcall
      obtain rfl := (Option.some.inj hcall)
      refine ⟨hsel, fun box2 hbox2 hnot _ => ?_⟩
      exact absurd ((Option.some.inj hbox2) ▸ hmem) hnot
    · rw [if_neg hmem] at hcall
      cases hset : setIconVisible rev box true with
      | none =>
        rw [hset] at hcall
        exact Option.noConfusion hcall
      | some rev' =>
        rw [hset] at hcall
        dsimp only at hcall
        by_cases hlen : (sel ++ [box]).length > 1
        · rw [if_pos hlen] at hcall
          have hsel1 : sel.length = 1 := by
            rw [List.length_append, List.length_cons, List.length_nil] at hlen
            omega
          obtain ⟨a, rfl⟩ := List.length_eq_one.mp hsel1
          simp only [List.cons_append, List.nil_append,
            List.getElem?_cons_zero, List.getElem?_cons_succ] at hcall
          cases hia : getShapeAndColor board a with
          | none =>
            rw [hia] at hcall
            exact Option.noConfusion hcall
          | some icon1 =>
            cases hib : getShapeAndColor board box with
            | none =>
              rw [hia, hib] at hcall
              exact Option.noConfusion hcall
            | some icon2 =>
              rw [hia, hib] at hcall
              dsimp only at hcall
              by_cases hicons : icon1 = icon2
              · rw [if_pos hicons] at hcall
                obtain rfl := (Option.some.inj hcall)
                exact ⟨by simp, fun _ _ _ _ => rfl⟩
              · rw [if_neg hicons] at hcall
                cases hhide : hideAll rev' [a, box] with
                | none =>
                  rw [hhide] at hcall
                  exact Option.noConfusion hcall
                | some rev2 =>
                  rw [hhide] at hcall
                  obtain rfl := (Option.some.inj hcall)
                  exact ⟨by simp, fun _ _ _ _ => rfl⟩
        · rw [if_neg hlen] at hcall
          obtain rfl := (Option.some.inj hcall)
          have hsel0 : sel.length = 0 := by
            rw [List.length_append, List.length_cons, List.length_nil] at hlen
            omega
          refine ⟨?_, fun box2 _ _ hsel1 => ?_⟩
          · simp only [List.length_append, List.length_cons, List.length_nil]
            omega
          · omega

/-- Witness for C8: the completed second pick at box `(1,0)` over the
singleton selection `[(0,0)]` on the test board clears the selection. -/
theorem claim_C8_selection_witness :
    ([] : List Box).length ≤ 1 ∧
    ∀ box, getBoxCell (120, 65) = some box →
      box ∉ [((0 : Int), (0 : Int))] →
      [((0 : Int), (0 : Int))].length = 1 → ([] : List Box) = [] :=
  claim_C8_selection testBoard startRev (120, 65) [((0 : Int), (0 : Int))]
    (by decide)
    ((List.replicate 7 false) :: (true :: List.replicate 6 false) ::
      List.replicate 8 (List.replicate 7 false), [], Outcome.Match)
    (by decide)

end Memory
